import Mathlib

/-!
Verification of the client-side event-feed reconciliation engine of the
OBD_Logger repository (`src/OBD_Logger/statics/script.js`).

The source file contains two successive revisions of the same script,
separated by a marker.  Revision 1 (lines 1-164) renders and updates cards
inline inside `renderEvents`; revision 2 (lines 165-346) factors the work
into `fetchEvents` / `createCard` / `updateCardStatus` / `removeItem`.
Both are embedded below where claims cite them.  DOM state is embedded as
explicit data: a card is a record of its id key, status text, background
color, and whether an artifact (expand) section exists; the container is
the list of cards in document order.  View mutations (element creation,
text writes, color writes, attach/detach, scroll-into-view) are recorded
explicitly so that claims about "zero view mutations" are statable.
-/

/-- One event record of the snapshot returned by `GET /events`:
`{status: "started"|"processed"|"done"}` (`data[key]` in the source). -/
structure EventRecord where
  status : String
deriving DecidableEq

/-- The full snapshot: the JSON object mapping EventKey to EventRecord,
embedded as an association list (JS object keys are unique). -/
abbrev Snapshot := List (String × EventRecord)

/-- One rendered card (`div.card` with id `card-${key}`): its key, the
text of its `.status` child, its inline `style.backgroundColor`, whether
the artifact/expand section (`expand-${key}`) exists inside `.actions`,
and whether that section carries the `show` class. -/
structure Card where
  key : String
  statusText : String
  bgColor : String
  hasArtifact : Bool
  expanded : Bool
deriving DecidableEq

/-- The engine's mutable state: the container's cards in document order,
the in-memory `expandedItems` override map, and the module-level
`previousKeys` array. -/
structure EngineState where
  cards : List Card
  expandedItems : List (String × Bool)
  previousKeys : List String
deriving DecidableEq

/-- An observable view mutation performed by the engine. -/
inductive Mutation where
  | create (key : String)
  | writeText (key : String) (text : String)
  | writeColor (key : String) (color : String)
  | attach (key : String)
  | detach (key : String)
  | scroll (key : String)
deriving DecidableEq

/-- Text/color writes only (the mutations `updateCardStatus` performs). -/
def isWriteMutation : Mutation → Bool
  | .writeText _ _ => true
  | .writeColor _ _ => true
  | _ => false

/-- Keys of the scroll-into-view mutations in a mutation trace. -/
def scrollTargets (muts : List Mutation) : List String :=
  muts.filterMap fun
    | .scroll k => some k
    | _ => none

/-- Keys of the cards in document order. -/
def cardKeys (cards : List Card) : List String :=
  cards.map Card.key

/-- `document.getElementById('card-' + key) !== null`: ids are
`card-${key}` with the raw key, so lookup is by raw key. -/
def hasCard (cards : List Card) (key : String) : Bool :=
  cards.any fun c => c.key == key

/-- The card id string `card-${key}`; built from the raw EventKey. -/
def cardId (key : String) : String :=
  "card-" ++ key

/-! ### Sorting of snapshot keys

`Object.keys(events).sort()` sorts keys as strings, lexicographically by
code unit.  The keys in this application are ASCII timestamps, where the
code-unit order coincides with the codepoint order used here. -/

/-- Lexicographic comparison of two key character lists by codepoint,
the order `Array.prototype.sort()` applies to these ASCII keys. -/
def keyLeChars : List Char → List Char → Bool
  | [], _ => true
  | _ :: _, [] => false
  | a :: as, b :: bs =>
    if a.toNat < b.toNat then true
    else if b.toNat < a.toNat then false
    else keyLeChars as bs

/-- Lexicographic order on keys, as a proposition. -/
def KeyLe (a b : String) : Prop :=
  keyLeChars a.data b.data = true

instance : DecidableRel KeyLe := fun a b =>
  inferInstanceAs (Decidable (keyLeChars a.data b.data = true))

theorem keyLeChars_total : ∀ as bs, keyLeChars as bs = true ∨ keyLeChars bs as = true := by
  intro as
  induction as with
  | nil => intro bs; exact Or.inl rfl
  | cons a as ih =>
    intro bs
    match bs with
    | [] => exact Or.inr rfl
    | b :: bs =>
      rcases Nat.lt_trichotomy a.toNat b.toNat with h | h | h
      · exact Or.inl (by simp [keyLeChars, h])
      · rcases ih bs with hr | hr
        · exact Or.inl (by simp [keyLeChars, h, hr])
        · exact Or.inr (by simp [keyLeChars, h, hr])
      · exact Or.inr (by simp [keyLeChars, h])

theorem keyLeChars_trans : ∀ as bs cs, keyLeChars as bs = true →
    keyLeChars bs cs = true → keyLeChars as cs = true := by
  intro as
  induction as with
  | nil => intro bs cs h1 h2; rfl
  | cons a as ih =>
    intro bs cs h1 h2
    match bs, cs with
    | [], _ => simp [keyLeChars] at h1
    | _ :: _, [] => simp [keyLeChars] at h2
    | b :: bs, c :: cs =>
      simp only [keyLeChars] at h1 h2 ⊢
      by_cases hab : a.toNat < b.toNat
      · by_cases hbc : b.toNat < c.toNat
        · simp [Nat.lt_trans hab hbc]
        · by_cases hcb : c.toNat < b.toNat
          · simp [hbc, hcb] at h2
          · have hbc' : b.toNat = c.toNat := by omega
            simp [hbc' ▸ hab]
      · by_cases hba : b.toNat < a.toNat
        · simp [hab, hba] at h1
        · have hab' : a.toNat = b.toNat := by omega
          by_cases hbc : b.toNat < c.toNat
          · simp [hab' ▸ hbc]
          · by_cases hcb : c.toNat < b.toNat
            · simp [hbc, hcb] at h2
            · simp only [hab, hba, if_false] at h1
              simp only [hbc, hcb, if_false] at h2
              have hac : ¬ a.toNat < c.toNat := by omega
              have hca : ¬ c.toNat < a.toNat := by omega
              simp only [hac, hca, if_false]
              exact ih bs cs h1 h2

instance : IsTotal String KeyLe :=
  ⟨fun a b => keyLeChars_total a.data b.data⟩

instance : IsTrans String KeyLe :=
  ⟨fun a b c => keyLeChars_trans a.data b.data c.data⟩

/-- `Object.keys(events).sort()`: the snapshot keys in ascending lexical
order (insertion sort; with unique keys the sorted permutation is the
one `Array.prototype.sort` returns). -/
def sortKeys (keys : List String) : List String :=
  List.insertionSort KeyLe keys

/-! ### Status derivations

Revision 2, `updateCardStatus` (script.js lines 262-278):
`let statusText = ""; let color = "#ccc";` then an if/else-if chain over
the three recognized statuses. -/

/-- The `(statusText, color)` pair `updateCardStatus` derives from
`data.status` (revision 2, lines 263-275). -/
def deriveStatus (status : String) : String × String :=
  if status == "started" then
    ("Received signal. Data logging started.", "#780606")
  else if status == "processed" then
    ("Data logging finished. Start cleaning process.", "#2e6930")
  else if status == "done" then
    ("Cleaned data saved. Insights is ready.", "#8a00c2")
  else
    ("", "#ccc")

/-- Revision 1 card creation (script.js lines 38-58): background defaults
to `#ccc`, the `.status` div starts empty, and only the three recognized
statuses assign a text and color. -/
def createStatusRender1 (status : String) : String × String :=
  if status == "started" then
    ("Received signal. Data logging started.", "#780606")
  else if status == "processed" then
    ("Data logging finished. Start cleaning process.", "#2e6930")
  else if status == "done" then
    ("Cleaned data saved. Insights is ready.", "#8a00c2")
  else
    ("", "#ccc")

/-- Revision 1 update branch, `newStatus` ternary chain (lines 86-90):
anything that is neither `done` nor `processed` gets the Started text. -/
def updateNewStatus1 (status : String) : String :=
  if status == "done" then "Cleaned data saved. Insights is ready."
  else if status == "processed" then "Data logging finished. Start cleaning process."
  else "Received signal. Data logging started."

/-- Revision 1 update branch, `bgColor` ternary chain (lines 96-100):
anything that is neither `done` nor `processed` gets the Started color. -/
def updateBgColor1 (status : String) : String :=
  if status == "done" then "#8a00c2"
  else if status == "processed" then "#2e6930"
  else "#780606"

/-! ### Revision 2: createCard / updateCardStatus / fetchEvents -/

/-- `updateCardStatus(key, data)` (script.js lines 258-279): look the card
up by id; if absent return without doing anything; otherwise derive
`(statusText, color)` and write both unconditionally (no change check).
Returns the updated container plus the performed view mutations. -/
def updateCardStatus (cards : List Card) (key : String) (data : EventRecord) :
    List Card × List Mutation :=
  if hasCard cards key then
    let tc := deriveStatus data.status
    (cards.map fun c =>
       if c.key == key then { c with statusText := tc.1, bgColor := tc.2 } else c,
     [Mutation.writeText key tc.1, Mutation.writeColor key tc.2])
  else
    (cards, [])

/-- `createCard(key, data)` (script.js lines 199-252): builds the card
with an artifact/expand section exactly when `data.status === "done"`,
seeding its visibility from `expandedItems[key]`.  The trailing
`updateCardStatus(key, data)` call inside `createCard` is a no-op: the
card has not been appended to the document yet, so
`document.getElementById` returns `null` and `updateCardStatus` returns
immediately — the new card carries an empty status text and no inline
background color.  (The timestamp div's content is fixed at creation and
never consulted afterwards, so it is not part of the card state.) -/
def createCard (expandedItems : List (String × Bool)) (key : String)
    (data : EventRecord) : Card :=
  { key := key
    statusText := ""
    bgColor := ""
    hasArtifact := data.status == "done"
    expanded := data.status == "done" && (expandedItems.lookup key).getD false }

/-- One iteration of the `currentKeys.forEach` loop in `fetchEvents`
(script.js lines 177-192): if no card with this id exists, create and
append one, scheduling the scroll-into-view exactly when
`key === newlyAdded && eventData.status === 'done'`; otherwise call
`updateCardStatus`. -/
def reconcileStep (expandedItems : List (String × Bool)) (events : Snapshot)
    (newlyAdded : Option String) (acc : List Card × List Mutation)
    (key : String) : List Card × List Mutation :=
  let data := (events.lookup key).getD ⟨""⟩
  if !(hasCard acc.1 key) then
    let newCard := createCard expandedItems key data
    (acc.1 ++ [newCard],
     acc.2 ++ [Mutation.create key] ++
       (if newlyAdded == some key && (data.status == "done")
        then [Mutation.scroll key] else []))
  else
    let u := updateCardStatus acc.1 key data
    (u.1, acc.2 ++ u.2)

/-- The body of `fetchEvents` after the response arrives (script.js lines
171-192; revision 1's `renderEvents`, lines 19-107, computes `currentKeys`
and `newlyAdded` identically): sort the snapshot keys, compute
`newlyAdded` as the **first** sorted key missing from `previousKeys`,
replace `previousKeys`, then create/update each card in order. -/
def reconcile (s : EngineState) (events : Snapshot) :
    EngineState × List Mutation :=
  let currentKeys := sortKeys (events.map Prod.fst)
  let newlyAdded := currentKeys.find? fun k => !(s.previousKeys.contains k)
  let res := currentKeys.foldl (reconcileStep s.expandedItems events newlyAdded)
    (s.cards, [])
  ({ s with cards := res.1, previousKeys := currentKeys }, res.2)

/-- The delete request URL `removeItem` targets. -/
def delReq (key : String) : String :=
  "/events/remove/" ++ key

/-- `removeItem(key)` (script.js lines 302-308, revision 2): remove the
card element if present, delete `expandedItems[key]`, persist the map,
and fire the DELETE request unconditionally.  Returns the new state and
the list of issued requests.  (Revision 1's variant, lines 154-160,
differs only in removing `expand-${key}`'s parent element — the actions
container — instead of the card; part_000's variant, lines 81-85, skips
the `expandedItems` deletion.  All three fire the request
unconditionally.) -/
def removeItem (s : EngineState) (key : String) : EngineState × List String :=
  ({ s with cards := s.cards.filter fun c => !(c.key == key)
            expandedItems := s.expandedItems.filter fun p => !(p.1 == key) },
   [delReq key])

/-! ### TimestampCodec — formatTimestamp / sanitizeFilename -/

/-- `String.prototype.split` with a single-character separator. -/
def splitOnChar (sep : Char) : List Char → List (List Char)
  | [] => [[]]
  | c :: cs =>
    let r := splitOnChar sep cs
    if c == sep then [] :: r
    else
      match r with
      | y :: ys => (c :: y) :: ys
      | [] => [[c]]

/-- Digits-to-number, for a run of decimal digit characters. -/
def digitsToNat (cs : List Char) : Nat :=
  cs.foldl (fun n c => n * 10 + (c.toNat - 48)) 0

/-- A fixed-width all-digit numeric field, as required of each component
of an ECMA Date Time String Format date (`YYYY-MM-DDTHH:MM:SS`). -/
def parseFixedNat (width : Nat) (cs : List Char) : Option Nat :=
  if cs.length = width && cs.all Char.isDigit then some (digitsToNat cs)
  else none

/-- The six calendar fields of the reassembled datetime string. -/
structure DateTimeParts where
  year : Nat
  month : Nat
  day : Nat
  hour : Nat
  minute : Nat
  second : Nat
deriving DecidableEq

/-- Days in a month of the proleptic Gregorian calendar. -/
def daysInMonth (year month : Nat) : Nat :=
  if month = 2 then
    if (year % 4 = 0 && year % 100 != 0) || year % 400 = 0 then 29 else 28
  else if month = 4 || month = 6 || month = 9 || month = 11 then 30
  else 31

/-- The field-range check `new Date(formatted)` applies to an ISO
`YYYY-MM-DDTHH:MM:SS` string: `isNaN(dt.getTime())` is false exactly when
the fields denote a real calendar datetime.  (The Date builtin is
external; it is embedded here as the strict ECMA Date Time String Format
semantics for strings of this shape.) -/
def jsDateValid (dt : DateTimeParts) : Bool :=
  1 ≤ dt.month && dt.month ≤ 12 &&
  1 ≤ dt.day && dt.day ≤ daysInMonth dt.year dt.month &&
  dt.hour ≤ 23 && dt.minute ≤ 59 && dt.second ≤ 59

/-- The parsing steps of `formatTimestamp` (script.js lines 314-333):
split at `"T"` requiring exactly two parts; split the time part on `"-"`
requiring at least three components; reassemble
`datePart + "T" + t0 + ":" + t1 + ":" + t2` and parse it as a datetime,
which succeeds only for strict 4-2-2 digit date fields and 2-digit time
fields.  `none` models a thrown error caught by the `catch` clause. -/
def parseTimestampKey (key : String) : Option DateTimeParts :=
  match splitOnChar 'T' key.data with
  | [dateChars, timeChars] =>
    match splitOnChar '-' timeChars with
    | t0 :: t1 :: t2 :: _ =>
      match splitOnChar '-' dateChars with
      | [ys, ms, ds] =>
        match parseFixedNat 4 ys, parseFixedNat 2 ms, parseFixedNat 2 ds,
              parseFixedNat 2 t0, parseFixedNat 2 t1, parseFixedNat 2 t2 with
        | some y, some mo, some d, some h, some mi, some sec =>
          some ⟨y, mo, d, h, mi, sec⟩
        | _, _, _, _, _, _ => none
      | _ => none
    | _ => none
  | _ => none

/-- `true` when `formatTimestamp` takes its fallback path on this key. -/
def decodeFails (key : String) : Bool :=
  match parseTimestampKey key with
  | some dt => !jsDateValid dt
  | none => true

/-- `formatTimestamp(norm_ts)` (script.js lines 314-333, identical to
revision 1 lines 112-135).  The locale renderers are parameters:
`localeTime h mi` stands for `dt.toLocaleTimeString([], {hour:'2-digit',
minute:'2-digit'})` and `localeDate d mo y` for
`dt.toLocaleDateString('en-GB')` (dd/mm/yyyy order).  On any failure the
catch clause returns the original key unchanged. -/
def formatTimestamp (localeTime : Nat → Nat → String)
    (localeDate : Nat → Nat → Nat → String) (norm_ts : String) : String :=
  match parseTimestampKey norm_ts with
  | some dt =>
    if jsDateValid dt then
      localeTime dt.hour dt.minute ++ " " ++ localeDate dt.day dt.month dt.year
    else norm_ts
  | none => norm_ts

/-- Single-character global replace, `s.replace(/a/g, b)`. -/
def replaceChar (a b : Char) (s : String) : String :=
  ⟨s.data.map fun c => if c == a then b else c⟩

/-- `sanitizeFilename(ts)` (script.js lines 339-341 and 13-15):
`ts.replace(/:/g, '-').replace(/ /g, 'T').replace(/\//g, '-')` —
colons and slashes become dashes, spaces become `T`; dots are untouched. -/
def sanitizeFilename (ts : String) : String :=
  replaceChar '/' '-' (replaceChar ' ' 'T' (replaceChar ':' '-' ts))

/-- The inline transform of revision 1 (script.js line 27 and part_000
line 39): `key.replace(/[:.]/g, "-")` — both colons and dots become
dashes. -/
def safeKeyInline (key : String) : String :=
  ⟨key.data.map fun c => if c == ':' || c == '.' then '-' else c⟩

/-! ### PersistenceLayer — loading `expandedItems` at startup

`const expandedItems = JSON.parse(localStorage.getItem("expandedItems") || "{}")`
(script.js lines 1 and 165).  `JSON.parse` is a platform builtin; it is
embedded below as a parser for the flat string→bool objects that
`JSON.stringify(expandedItems)` produces, returning `none` for input it
rejects — which models the thrown `SyntaxError`. -/

/-- Skip JSON insignificant whitespace. -/
def skipWs : List Char → List Char
  | [] => []
  | c :: cs =>
    if c == ' ' || c == '\t' || c == '\n' || c == '\r' then skipWs cs
    else c :: cs

/-- Parse the body of a JSON string literal after its opening quote,
returning the content and the rest after the closing quote.  An escape
consumes the following character verbatim (enough for the keys this
application stores). -/
def parseStringBody : List Char → Option (List Char × List Char)
  | [] => none
  | c :: cs =>
    if c == '"' then some ([], cs)
    else if c == '\\' then
      match cs with
      | [] => none
      | e :: cs2 =>
        match parseStringBody cs2 with
        | some (acc, rest) => some (e :: acc, rest)
        | none => none
    else
      match parseStringBody cs with
      | some (acc, rest) => some (c :: acc, rest)
      | none => none

/-- Parse a JSON `true` / `false` token. -/
def parseBoolTok : List Char → Option (Bool × List Char)
  | 't' :: 'r' :: 'u' :: 'e' :: rest => some (true, rest)
  | 'f' :: 'a' :: 'l' :: 's' :: 'e' :: rest => some (false, rest)
  | _ => none

/-- Parse the `"key": bool` entries of a JSON object after its opening
brace, up to and including the closing brace.  `fuel` bounds the entry
count (one entry consumes at least one character). -/
def parseEntries : Nat → List Char → Option (List (String × Bool) × List Char)
  | 0, _ => none
  | fuel + 1, cs =>
    match skipWs cs with
    | '"' :: cs1 =>
      match parseStringBody cs1 with
      | none => none
      | some (keyChars, cs2) =>
        match skipWs cs2 with
        | ':' :: cs3 =>
          match parseBoolTok (skipWs cs3) with
          | none => none
          | some (b, cs4) =>
            match skipWs cs4 with
            | ',' :: cs5 =>
              match parseEntries fuel cs5 with
              | some (es, rest) => some ((⟨keyChars⟩, b) :: es, rest)
              | none => none
            | '\x7d' :: cs5 => some ([(⟨keyChars⟩, b)], cs5)
            | _ => none
        | _ => none
    | _ => none

/-- `JSON.parse` restricted to the flat string→bool objects this engine
stores; `none` models the `SyntaxError` thrown on anything else. -/
def parseExpandedJson (s : String) : Option (List (String × Bool)) :=
  match skipWs s.data with
  | '\x7b' :: cs =>
    match skipWs cs with
    | '\x7d' :: rest => if skipWs rest == [] then some [] else none
    | _ =>
      match parseEntries (s.length + 1) cs with
      | some (es, rest) => if skipWs rest == [] then some es else none
      | none => none
  | _ => none

/-- Startup load of the override map (script.js line 1 / 165):
`JSON.parse(localStorage.getItem("expandedItems") || "{}")`.  `stored` is
what `localStorage.getItem` returns (`none` = absent = JS `null`; the
empty string is also falsy, so both fall back to `"\x7b\x7d"`).  A `none`
result is the uncaught exception that aborts the script at startup. -/
def loadExpandedItems (stored : Option String) : Option (List (String × Bool)) :=
  let raw :=
    match stored with
    | none => "\x7b\x7d"
    | some s => if s == "" then "\x7b\x7d" else s
  parseExpandedJson raw

/-! ### Helper lemmas -/

theorem cardKeys_append (c1 c2 : List Card) :
    cardKeys (c1 ++ c2) = cardKeys c1 ++ cardKeys c2 :=
  List.map_append _ _ _

theorem hasCard_append (c1 c2 : List Card) (k : String) :
    hasCard (c1 ++ c2) k = (hasCard c1 k || hasCard c2 k) :=
  List.any_append

theorem hasCard_eq_any_keys (cards : List Card) (k : String) :
    hasCard cards k = (cardKeys cards).any (fun x => x == k) := by
  induction cards with
  | nil => rfl
  | cons c cs ih =>
    simp only [hasCard, cardKeys, List.map_cons, List.any_cons] at ih ⊢
    rw [ih]

theorem hasCard_of_keys_eq {c1 c2 : List Card} (h : cardKeys c1 = cardKeys c2)
    (k : String) : hasCard c1 k = hasCard c2 k := by
  rw [hasCard_eq_any_keys, hasCard_eq_any_keys, h]

theorem updateCardStatus_keys (cards : List Card) (key : String)
    (data : EventRecord) :
    cardKeys (updateCardStatus cards key data).1 = cardKeys cards := by
  unfold updateCardStatus
  split
  · simp only [cardKeys, List.map_map]
    apply List.map_congr_left
    intro c _
    simp only [Function.comp_apply]
    split <;> rfl
  · rfl

theorem updateCardStatus_hasCard (cards : List Card) (key k : String)
    (data : EventRecord) :
    hasCard (updateCardStatus cards key data).1 k = hasCard cards k :=
  hasCard_of_keys_eq (updateCardStatus_keys cards key data) k

theorem createCard_key (exp : List (String × Bool)) (key : String)
    (data : EventRecord) : (createCard exp key data).key = key :=
  rfl

theorem reconcileStep_hasCard_mono (exp : List (String × Bool)) (ev : Snapshot)
    (na : Option String) (acc : List Card × List Mutation) (key k : String)
    (h : hasCard acc.1 k = true) :
    hasCard (reconcileStep exp ev na acc key).1 k = true := by
  unfold reconcileStep
  split
  · simp [hasCard_append, h]
  · simp [updateCardStatus_hasCard, h]

theorem reconcileStep_hasCard_self (exp : List (String × Bool)) (ev : Snapshot)
    (na : Option String) (acc : List Card × List Mutation) (key : String) :
    hasCard (reconcileStep exp ev na acc key).1 key = true := by
  unfold reconcileStep
  split
  · simp [hasCard_append, hasCard, createCard]
  · rename_i h
    simp only [Bool.not_eq_true', Bool.not_eq_false] at h
    simp [updateCardStatus_hasCard, h]

theorem hasCard_foldl (exp : List (String × Bool)) (ev : Snapshot)
    (na : Option String) :
    ∀ (ks : List String) (acc : List Card × List Mutation) (k : String),
      hasCard acc.1 k = true →
      hasCard (ks.foldl (reconcileStep exp ev na) acc).1 k = true := by
  intro ks
  induction ks with
  | nil => intro acc k h; exact h
  | cons key ks ih =>
    intro acc k h
    exact ih _ k (reconcileStep_hasCard_mono exp ev na acc key k h)

theorem hasCard_foldl_mem (exp : List (String × Bool)) (ev : Snapshot)
    (na : Option String) :
    ∀ (ks : List String) (acc : List Card × List Mutation) (k : String),
      k ∈ ks →
      hasCard (ks.foldl (reconcileStep exp ev na) acc).1 k = true := by
  intro ks
  induction ks with
  | nil => intro acc k h; cases h
  | cons key ks ih =>
    intro acc k h
    rcases List.mem_cons.mp h with h | h
    · subst h
      exact hasCard_foldl exp ev na ks _ _
        (reconcileStep_hasCard_self exp ev na acc _)
    · exact ih _ k h

theorem foldl_muts_writes (exp : List (String × Bool)) (ev : Snapshot)
    (na : Option String) :
    ∀ (ks : List String) (acc : List Card × List Mutation),
      acc.2.all isWriteMutation = true →
      (∀ k ∈ ks, hasCard acc.1 k = true) →
      ((ks.foldl (reconcileStep exp ev na) acc).2).all isWriteMutation = true := by
  intro ks
  induction ks with
  | nil => intro acc hacc _; exact hacc
  | cons key ks ih =>
    intro acc hacc h
    have hkey : hasCard acc.1 key = true := h key (List.mem_cons_self _ _)
    have hstep : reconcileStep exp ev na acc key =
        ((updateCardStatus acc.1 key ((ev.lookup key).getD ⟨""⟩)).1,
         acc.2 ++ (updateCardStatus acc.1 key ((ev.lookup key).getD ⟨""⟩)).2) := by
      unfold reconcileStep
      rw [if_neg (by simp [hkey])]
    rw [List.foldl_cons, hstep]
    apply ih
    · have : (updateCardStatus acc.1 key ((ev.lookup key).getD ⟨""⟩)).2.all
          isWriteMutation = true := by
        unfold updateCardStatus
        rw [if_pos hkey]
        rfl
      simp [List.all_append, hacc, this]
    · intro k hk
      rw [updateCardStatus_hasCard]
      exact h k (List.mem_cons_of_mem _ hk)

theorem scrollTargets_append (l1 l2 : List Mutation) :
    scrollTargets (l1 ++ l2) = scrollTargets l1 ++ scrollTargets l2 :=
  List.filterMap_append _ _ _

theorem foldl_cardKeys (exp : List (String × Bool)) (ev : Snapshot)
    (na : Option String) :
    ∀ (ks : List String) (acc : List Card × List Mutation), ks.Nodup →
      cardKeys (ks.foldl (reconcileStep exp ev na) acc).1 =
        cardKeys acc.1 ++ ks.filter (fun k => !(hasCard acc.1 k)) := by
  intro ks
  induction ks with
  | nil => intro acc _; simp
  | cons key ks ih =>
    intro acc hnd
    have hknotin : key ∉ ks := (List.nodup_cons.mp hnd).1
    have hndtail : ks.Nodup := (List.nodup_cons.mp hnd).2
    rw [List.foldl_cons]
    by_cases hk : hasCard acc.1 key = true
    · have hstep : reconcileStep exp ev na acc key =
          ((updateCardStatus acc.1 key ((ev.lookup key).getD ⟨""⟩)).1,
           acc.2 ++ (updateCardStatus acc.1 key ((ev.lookup key).getD ⟨""⟩)).2) := by
        unfold reconcileStep
        rw [if_neg (by simp [hk])]
      rw [hstep, ih _ hndtail, updateCardStatus_keys]
      have hfcong : ks.filter
            (fun k => !(hasCard (updateCardStatus acc.1 key
              ((ev.lookup key).getD ⟨""⟩)).1 k)) =
          ks.filter (fun k => !(hasCard acc.1 k)) := by
        apply List.filter_congr
        intro k _
        rw [updateCardStatus_hasCard]
      rw [hfcong, List.filter_cons_of_neg (by simp [hk])]
    · have hstep : reconcileStep exp ev na acc key =
          (acc.1 ++ [createCard exp key ((ev.lookup key).getD ⟨""⟩)],
           acc.2 ++ [Mutation.create key] ++
             (if na == some key &&
                (((ev.lookup key).getD ⟨""⟩).status == "done")
              then [Mutation.scroll key] else [])) := by
        unfold reconcileStep
        rw [if_pos (by simp [hk])]
      rw [hstep, ih _ hndtail]
      have hfcong : ks.filter
            (fun k => !(hasCard (acc.1 ++
              [createCard exp key ((ev.lookup key).getD ⟨""⟩)]) k)) =
          ks.filter (fun k => !(hasCard acc.1 k)) := by
        apply List.filter_congr
        intro k hkmem
        rw [hasCard_append]
        have : hasCard [createCard exp key ((ev.lookup key).getD ⟨""⟩)] k = false := by
          have hne : key ≠ k := fun he => hknotin (he ▸ hkmem)
          simp [hasCard, createCard, hne]
        rw [this, Bool.or_false]
      rw [hfcong, cardKeys_append, List.filter_cons_of_pos (by simp [hk])]
      simp [cardKeys, createCard]

theorem foldl_scrollTargets (exp : List (String × Bool)) (ev : Snapshot)
    (na : Option String) :
    ∀ (ks : List String) (acc : List Card × List Mutation)
      (cards0 : List Card), ks.Nodup →
      (∀ k ∈ ks, hasCard acc.1 k = hasCard cards0 k) →
      scrollTargets (ks.foldl (reconcileStep exp ev na) acc).2 =
        scrollTargets acc.2 ++
          ks.filter (fun k => !(hasCard cards0 k) && (na == some k) &&
            (((ev.lookup k).getD ⟨""⟩).status == "done")) := by
  intro ks
  induction ks with
  | nil => intro acc cards0 _ _; simp
  | cons key ks ih =>
    intro acc cards0 hnd hsame
    have hknotin : key ∉ ks := (List.nodup_cons.mp hnd).1
    have hndtail : ks.Nodup := (List.nodup_cons.mp hnd).2
    have hkey : hasCard acc.1 key = hasCard cards0 key :=
      hsame key (List.mem_cons_self _ _)
    rw [List.foldl_cons]
    by_cases hk : hasCard acc.1 key = true
    · have hstep : reconcileStep exp ev na acc key =
          ((updateCardStatus acc.1 key ((ev.lookup key).getD ⟨""⟩)).1,
           acc.2 ++ (updateCardStatus acc.1 key ((ev.lookup key).getD ⟨""⟩)).2) := by
        unfold reconcileStep
        rw [if_neg (by simp [hk])]
      rw [hstep, ih _ cards0 hndtail
        (fun k hkm => by
          rw [updateCardStatus_hasCard]
          exact hsame k (List.mem_cons_of_mem _ hkm))]
      have hupd : scrollTargets (acc.2 ++
          (updateCardStatus acc.1 key ((ev.lookup key).getD ⟨""⟩)).2) =
          scrollTargets acc.2 := by
        rw [scrollTargets_append]
        unfold updateCardStatus
        rw [if_pos hk]
        simp [scrollTargets]
      rw [hupd, List.filter_cons_of_neg (by simp [← hkey, hk])]
    · have hstep : reconcileStep exp ev na acc key =
          (acc.1 ++ [createCard exp key ((ev.lookup key).getD ⟨""⟩)],
           acc.2 ++ [Mutation.create key] ++
             (if na == some key &&
                (((ev.lookup key).getD ⟨""⟩).status == "done")
              then [Mutation.scroll key] else [])) := by
        unfold reconcileStep
        rw [if_pos (by simp [hk])]
      rw [hstep, ih _ cards0 hndtail
        (fun k hkm => by
          rw [hasCard_append]
          have hne : key ≠ k := fun he => hknotin (he ▸ hkm)
          have : hasCard [createCard exp key ((ev.lookup key).getD ⟨""⟩)] k = false := by
            simp [hasCard, createCard, hne]
          rw [this, Bool.or_false]
          exact hsame k (List.mem_cons_of_mem _ hkm))]
      rw [scrollTargets_append, scrollTargets_append]
      have hkey0 : hasCard cards0 key = false := by
        rw [← hkey]
        exact Bool.not_eq_true _ ▸ (Bool.of_not_eq_true hk)
      by_cases hcond : (na == some key &&
          (((ev.lookup key).getD ⟨""⟩).status == "done")) = true
      · rw [if_pos hcond, List.filter_cons_of_pos (by simp [hkey0, hcond])]
        simp only [scrollTargets, List.filterMap_cons, List.filterMap_nil]
        simp [List.append_assoc]
      · rw [if_neg hcond, List.filter_cons_of_neg (by simp [hkey0]; simp at hcond; intro h1 h2; simp [h1, h2] at hcond)]
        simp [scrollTargets]

theorem hasCard_filter_out (cards : List Card) (key : String) :
    hasCard (cards.filter fun c => !(c.key == key)) key = false := by
  induction cards with
  | nil => rfl
  | cons c cs ih =>
    rw [List.filter_cons]
    by_cases h : (c.key == key) = true
    · simp only [h, Bool.not_true, if_false]
      exact ih
    · simp only [h, Bool.not_false, if_true]
      simp only [hasCard, List.any_cons] at ih ⊢
      simp [h, ih]

/-! ### Claim theorems -/

/-- Claim C1 (amended): `updateCardStatus` only rewrites the status text
and background color of the targeted card; it never attaches an artifact
section (nor touches any card's key, artifact section, or expansion), so
a card created while its status was Started or Processed does not gain an
artifact section when a later poll reports Done. -/
theorem claim_C1 (cards : List Card) (key : String) (data : EventRecord) :
    (updateCardStatus cards key data).1.map
        (fun c => (c.key, c.hasArtifact, c.expanded)) =
      cards.map (fun c => (c.key, c.hasArtifact, c.expanded)) ∧
    (updateCardStatus cards key data).2.all isWriteMutation = true := by
  constructor
  · unfold updateCardStatus
    split
    · rw [List.map_map]
      apply List.map_congr_left
      intro c _
      simp only [Function.comp_apply]
      split <;> rfl
    · rfl
  · unfold updateCardStatus
    split <;> rfl

/-- Claim C1 counterexample: a card created while its record's status was
Started (so without an artifact section) is updated to Done by
`updateCardStatus`, which changes the text and color but attaches no
artifact section — contradicting the claim that one is attached when the
status first becomes Done. -/
theorem claim_C1_counterexample :
    (updateCardStatus [⟨"k", "", "", false, false⟩] "k" ⟨"done"⟩).1 =
      [⟨"k", "Cleaned data saved. Insights is ready.", "#8a00c2", false, false⟩] ∧
    ((updateCardStatus [⟨"k", "", "", false, false⟩] "k" ⟨"done"⟩).1.map
      Card.hasArtifact) = [false] := by
  constructor <;> decide

/-- Claim C4 (amended): the first `removeItem(key)` detaches the card,
deletes the key from the `expandedItems` (Expansion) map, and issues one
delete request; a second removal of the now-absent key leaves the cards
and the Expansion map unchanged but still issues one more delete request
(there is no LabelOverride map anywhere in the code). -/
theorem claim_C4 (s : EngineState) (key : String) :
    (removeItem s key).1.cards = s.cards.filter (fun c => !(c.key == key)) ∧
    (removeItem s key).1.expandedItems =
      s.expandedItems.filter (fun p => !(p.1 == key)) ∧
    (removeItem s key).2 = [delReq key] ∧
    (removeItem (removeItem s key).1 key).1.cards = (removeItem s key).1.cards ∧
    (removeItem (removeItem s key).1 key).1.expandedItems =
      (removeItem s key).1.expandedItems ∧
    (removeItem (removeItem s key).1 key).2 = [delReq key] := by
  refine ⟨rfl, rfl, rfl, ?_, ?_, rfl⟩
  · simp only [removeItem, List.filter_filter]
    apply List.filter_congr
    intro c _
    exact Bool.and_self _
  · simp only [removeItem, List.filter_filter]
    apply List.filter_congr
    intro p _
    exact Bool.and_self _

/-- Claim C4 counterexample: removing the same key twice from a state
that held one card and one Expansion entry for it issues a delete request
on the second removal as well — the second removal is not a no-op, and
two requests are sent in total, contradicting "exactly one delete
request" with the second removal sending none. -/
theorem claim_C4_counterexample :
    (removeItem (removeItem ⟨[⟨"k", "", "", false, false⟩], [("k", true)], []⟩
        "k").1 "k").2 = ["/events/remove/k"] ∧
    ((removeItem ⟨[⟨"k", "", "", false, false⟩], [("k", true)], []⟩ "k").2 ++
      (removeItem (removeItem ⟨[⟨"k", "", "", false, false⟩], [("k", true)], []⟩
        "k").1 "k").2).length = 2 := by
  constructor <;> decide

/-- Claim C10: every invocation of `removeItem(key)` issues exactly one
DELETE request for the key, even when no card exists for it — in
particular the repeated removal, after the card is gone, still sends one. -/
theorem claim_C10 (s : EngineState) (key : String) :
    (removeItem s key).2 = [delReq key] ∧
    hasCard (removeItem s key).1.cards key = false ∧
    (removeItem (removeItem s key).1 key).2 = [delReq key] := by
  refine ⟨rfl, ?_, rfl⟩
  exact hasCard_filter_out s.cards key

/-- Claim C8 (amended): an absent (or empty) stored value yields the
empty override map, but a corrupt stored value propagates the
`JSON.parse` failure — the exception escapes the top-level `const`
initializer, a fatal error at startup, not an empty map. -/
theorem claim_C8 :
    loadExpandedItems none = some [] ∧
    loadExpandedItems (some "") = some [] ∧
    (∀ s : String, s ≠ "" → parseExpandedJson s = none →
      loadExpandedItems (some s) = none) := by
  refine ⟨by decide, by decide, ?_⟩
  intro s hne hparse
  simp only [loadExpandedItems]
  rw [if_neg (by simp [hne])]
  exact hparse

/-- Claim C8 witness: the corrupt stored value `"not json"` is rejected
by the parse and the startup load propagates the failure. -/
theorem claim_C8_witness :
    ("not json" ≠ "" ∧ parseExpandedJson "not json" = none) ∧
    loadExpandedItems (some "not json") = none :=
  ⟨⟨by decide, by decide⟩,
   claim_C8.2.2 "not json" (by decide) (by decide)⟩

/-- Claim C8 counterexample: with the corrupt stored value `"not json"`,
the startup load is the propagated parse failure (`none`, the thrown
`SyntaxError`), not the empty map the claim promises. -/
theorem claim_C8_counterexample :
    loadExpandedItems (some "not json") = none ∧
    loadExpandedItems (some "not json") ≠ some [] := by
  constructor <;> decide

/-- Claim C9 (amended): for an unrecognized status string, card creation
(revision 1) and `updateCardStatus` (revision 2) render an empty status
text with the neutral `#ccc` color — there is no "Unknown status" text —
while the revision-1 update branch renders the recognized Started text
and Started color. -/
theorem claim_C9 (st : String) (h1 : st ≠ "started") (h2 : st ≠ "processed")
    (h3 : st ≠ "done") :
    createStatusRender1 st = ("", "#ccc") ∧
    deriveStatus st = ("", "#ccc") ∧
    updateNewStatus1 st = "Received signal. Data logging started." ∧
    updateBgColor1 st = "#780606" := by
  have e1 : (st == "started") = false := by simp [h1]
  have e2 : (st == "processed") = false := by simp [h2]
  have e3 : (st == "done") = false := by simp [h3]
  refine ⟨?_, ?_, ?_, ?_⟩ <;>
    simp [createStatusRender1, deriveStatus, updateNewStatus1, updateBgColor1,
      e1, e2, e3]

/-- Claim C9 witness: the unrecognized status `"bogus"` instantiates the
amended claim. -/
theorem claim_C9_witness :
    ("bogus" ≠ "started" ∧ "bogus" ≠ "processed" ∧ "bogus" ≠ "done") ∧
    (createStatusRender1 "bogus" = ("", "#ccc") ∧
     deriveStatus "bogus" = ("", "#ccc") ∧
     updateNewStatus1 "bogus" = "Received signal. Data logging started." ∧
     updateBgColor1 "bogus" = "#780606") :=
  ⟨⟨by decide, by decide, by decide⟩,
   claim_C9 "bogus" (by decide) (by decide) (by decide)⟩

/-- Claim C9 counterexample: for the unrecognized status `"bogus"` the
revision-1 update branch renders exactly the recognized Started text and
Started color, and the creation fallback text is empty, not
"Unknown status" — contradicting the claim that unknown statuses never
render a recognized status text/color and show an "Unknown status"
fallback. -/
theorem claim_C9_counterexample :
    updateNewStatus1 "bogus" = "Received signal. Data logging started." ∧
    updateBgColor1 "bogus" = "#780606" ∧
    createStatusRender1 "bogus" = ("", "#ccc") ∧
    (createStatusRender1 "bogus").1 ≠ "Unknown status" := by
  refine ⟨by decide, by decide, by decide, by decide⟩

/-- Claim C6 (amended): the revision-1 inline transform
(`key.replace(/[:.]/g, "-")`) eliminates every `:` and `.`; the
`sanitizeFilename` transform used by revision 2's `createCard`
eliminates every `:`, space, and `/` but leaves `.` characters in place;
and identity lookups always use the raw key (`card-${key}` is injective
in the raw key). -/
theorem claim_C6 (key k1 k2 : String) :
    ((safeKeyInline key).data.all fun c => !(c == ':') && !(c == '.')) = true ∧
    ((sanitizeFilename key).data.all
      fun c => !(c == ':') && !(c == ' ') && !(c == '/')) = true ∧
    ('.' ∈ key.data → '.' ∈ (sanitizeFilename key).data) ∧
    (cardId k1 = cardId k2 ↔ k1 = k2) := by
  refine ⟨?_, ?_, ?_, ?_⟩
  · simp only [safeKeyInline, List.all_eq_true]
    intro c hc
    rcases List.mem_map.mp hc with ⟨c0, _, rfl⟩
    by_cases h : (c0 == ':' || c0 == '.') = true
    · rw [if_pos h]
      decide
    · rw [if_neg h]
      simp only [Bool.or_eq_true, not_or, Bool.not_eq_true] at h
      simp [h.1, h.2]
  · simp only [sanitizeFilename, replaceChar, List.map_map, List.all_eq_true]
    intro c hc
    rcases List.mem_map.mp hc with ⟨c0, _, rfl⟩
    simp only [Function.comp_apply]
    by_cases h1 : c0 = ':'
    · subst h1; decide
    · by_cases h2 : c0 = ' '
      · subst h2; decide
      · by_cases h3 : c0 = '/'
        · subst h3; decide
        · have e1 : (c0 == ':') = false := by simp [h1]
          have e2 : (c0 == ' ') = false := by simp [h2]
          have e3 : (c0 == '/') = false := by simp [h3]
          simp [e1, e2, e3]
  · intro hdot
    simp only [sanitizeFilename, replaceChar, List.map_map]
    refine List.mem_map.mpr ⟨'.', hdot, ?_⟩
    decide
  · constructor
    · intro h
      have hd := congrArg String.data h
      simp only [cardId, String.data_append] at hd
      exact String.ext (List.append_cancel_left hd)
    · intro h
      rw [h]

/-- Claim C6 witness: the key `"a.b"` contains a dot, and the dot
survives `sanitizeFilename`. -/
theorem claim_C6_witness :
    ('.' ∈ ("a.b" : String).data ∧
     '.' ∈ (sanitizeFilename "a.b").data) ∧
    ((safeKeyInline "a.b").data.all fun c => !(c == ':') && !(c == '.')) = true ∧
    (cardId "x" = cardId "x" ↔ ("x" : String) = "x") :=
  ⟨⟨by decide, (claim_C6 "a.b" "x" "x").2.2.1 (by decide)⟩,
   (claim_C6 "a.b" "x" "x").1, (claim_C6 "a.b" "x" "x").2.2.2⟩

/-- Claim C6 counterexample: `sanitizeFilename` — the transform revision
2's `createCard` uses to build artifact file names — leaves the `.` of
the key `"a.b"` untouched, contradicting the claim that every `.` is
replaced with `-`. -/
theorem claim_C6_counterexample :
    sanitizeFilename "a.b" = "a.b" ∧ sanitizeFilename "a.b" ≠ "a-b" := by
  constructor <;> decide

theorem filter_and_single (ks : List String) (k0 : String) (p q : String → Bool)
    (hnd : ks.Nodup) (hk : k0 ∈ ks) :
    ks.filter (fun k => p k && (k0 == k) && q k) =
      if p k0 && q k0 then [k0] else [] := by
  induction ks with
  | nil => cases hk
  | cons a ks ih =>
    have hanotin : a ∉ ks := (List.nodup_cons.mp hnd).1
    have hndtail : ks.Nodup := (List.nodup_cons.mp hnd).2
    rcases List.mem_cons.mp hk with rfl | hmem
    · have htail : ks.filter (fun k => p k && (k0 == k) && q k) = [] := by
        apply List.filter_eq_nil_iff.mpr
        intro x hx
        have hne : k0 ≠ x := fun he => hanotin (he ▸ hx)
        simp [hne]
      rw [List.filter_cons, htail]
      by_cases hp : p k0 = true
      · by_cases hq : q k0 = true
        · rw [if_pos (by simp [hp, hq]), if_pos (by simp [hp, hq])]
        · rw [if_neg (by simp [hq]), if_neg (by simp [hq])]
      · rw [if_neg (by simp [hp]), if_neg (by simp [hp])]
    · have hne : (k0 == a) = false := by
        have : k0 ≠ a := fun he => hanotin (he ▸ hmem)
        simp [this]
      rw [List.filter_cons, if_neg (by simp [hne])]
      exact ih hndtail hmem

/-- Claim C2 (amended): applying the identical snapshot a second time
performs no element creation, no attach/detach, and no scroll — every
mutation of the second application is a text or color write (which
`updateCardStatus` performs unconditionally on every pass, with no
change check). -/
theorem claim_C2 (s : EngineState) (ev : Snapshot) :
    ((reconcile (reconcile s ev).1 ev).2).all isWriteMutation = true := by
  simp only [reconcile]
  apply foldl_muts_writes
  · rfl
  · intro k hk
    exact hasCard_foldl_mem _ _ _ _ _ _ hk

/-- Claim C2 counterexample: one key with status `started`; the second
application of the identical snapshot performs two view mutations — it
rewrites the status text and the background color — not zero, as the
claim requires. -/
theorem claim_C2_counterexample :
    (reconcile (reconcile ⟨[], [], []⟩ [("k", ⟨"started"⟩)]).1
       [("k", ⟨"started"⟩)]).2 =
      [Mutation.writeText "k" "Received signal. Data logging started.",
       Mutation.writeColor "k" "#780606"] ∧
    (reconcile (reconcile ⟨[], [], []⟩ [("k", ⟨"started"⟩)]).1
       [("k", ⟨"started"⟩)]).2 ≠ [] := by
  constructor <;> decide

/-- Claim C3 (amended): per poll the scroll candidate is `newlyAdded` —
the smallest current key missing from the previous poll's key set,
regardless of its status — and the scroll fires iff that single
candidate has no existing card and its status is Done; hence at most one
scroll per poll, and for two newly present Done keys the smaller one is
scrolled, but a newly added non-Done key that is smaller than a newly
added Done key suppresses the scroll entirely. -/
theorem claim_C3 (s : EngineState) (ev : Snapshot)
    (hnd : (ev.map Prod.fst).Nodup) :
    scrollTargets (reconcile s ev).2 =
      (match (sortKeys (ev.map Prod.fst)).find?
          (fun k => !(s.previousKeys.contains k)) with
       | some k =>
           if !(hasCard s.cards k) &&
              (((ev.lookup k).getD ⟨""⟩).status == "done") then [k] else []
       | none => []) ∧
    (scrollTargets (reconcile s ev).2).length ≤ 1 := by
  have hndks : (sortKeys (ev.map Prod.fst)).Nodup :=
    ((List.perm_insertionSort KeyLe _).nodup_iff).mpr hnd
  have heq : scrollTargets (reconcile s ev).2 =
      (sortKeys (ev.map Prod.fst)).filter
        (fun k => !(hasCard s.cards k) &&
          ((sortKeys (ev.map Prod.fst)).find?
            (fun x => !(s.previousKeys.contains x)) == some k) &&
          (((ev.lookup k).getD ⟨""⟩).status == "done")) := by
    simp only [reconcile]
    rw [foldl_scrollTargets _ _ _ _ _ s.cards hndks (fun _ _ => rfl)]
    rfl
  have h1 : scrollTargets (reconcile s ev).2 =
      (match (sortKeys (ev.map Prod.fst)).find?
          (fun k => !(s.previousKeys.contains k)) with
       | some k =>
           if !(hasCard s.cards k) &&
              (((ev.lookup k).getD ⟨""⟩).status == "done") then [k] else []
       | none => []) := by
    rw [heq]
    cases hfind : (sortKeys (ev.map Prod.fst)).find?
        (fun x => !(s.previousKeys.contains x)) with
    | none =>
      apply List.filter_eq_nil_iff.mpr
      intro x _
      simp
    | some k0 =>
      have hmem : k0 ∈ sortKeys (ev.map Prod.fst) :=
        List.mem_of_find?_eq_some hfind
      have hconv : (fun k => !(hasCard s.cards k) &&
            ((some k0 : Option String) == some k) &&
            (((ev.lookup k).getD ⟨""⟩).status == "done")) =
          (fun k => !(hasCard s.cards k) && (k0 == k) &&
            (((ev.lookup k).getD ⟨""⟩).status == "done")) := rfl
      rw [hconv, filter_and_single _ k0 _ _ hndks hmem]
  refine ⟨h1, ?_⟩
  rw [h1]
  split
  · split <;> simp
  · simp

/-- Claim C3 witness: a fresh state and the single-key snapshot
`{k: done}` instantiate the amended claim: the scroll fires and targets
`k`. -/
theorem claim_C3_witness :
    (([("k", (⟨"done"⟩ : EventRecord))].map Prod.fst).Nodup) ∧
    (scrollTargets (reconcile ⟨[], [], []⟩ [("k", ⟨"done"⟩)]).2 =
      (match (sortKeys ([("k", (⟨"done"⟩ : EventRecord))].map Prod.fst)).find?
          (fun k => !(([] : List String).contains k)) with
       | some k =>
           if !(hasCard ([] : List Card) k) &&
              ((([("k", (⟨"done"⟩ : EventRecord))].lookup k).getD
                 ⟨""⟩).status == "done") then [k] else []
       | none => []) ∧
     (scrollTargets (reconcile ⟨[], [], []⟩ [("k", ⟨"done"⟩)]).2).length ≤ 1) :=
  ⟨by decide, claim_C3 ⟨[], [], []⟩ [("k", ⟨"done"⟩)] (by decide)⟩

/-- Claim C3 counterexample: keys `a` (started) and `b` (done) both newly
present in one poll.  By the claim, `b` qualifies (newly added and Done)
and, being the smallest qualifying key, must receive the scroll; the
code instead picks `a` as the single `newlyAdded` candidate, finds it
not Done, and fires no scroll at all. -/
theorem claim_C3_counterexample :
    scrollTargets (reconcile ⟨[], [], []⟩
      [("a", ⟨"started"⟩), ("b", ⟨"done"⟩)]).2 = [] ∧
    (([] : List String).contains "b") = false ∧
    (([("a", (⟨"started"⟩ : EventRecord)),
       ("b", (⟨"done"⟩ : EventRecord))].lookup "b").getD ⟨""⟩).status
      = "done" := by
  refine ⟨by decide, by decide, by decide⟩

/-- Claim C7 (amended): cards created in one pass are appended in
ascending key order after all existing cards, so the display stays in
ascending lexical order exactly when every key that needs a new card is
lexically at least every key already displayed (the chronological
arrival order of timestamp keys) — not regardless of insertion order. -/
theorem claim_C7 (s : EngineState) (ev : Snapshot)
    (hnd : (ev.map Prod.fst).Nodup)
    (hsorted : List.Pairwise KeyLe (cardKeys s.cards))
    (hcross : ∀ k ∈ ev.map Prod.fst, hasCard s.cards k = false →
      ∀ j ∈ cardKeys s.cards, KeyLe j k) :
    List.Pairwise KeyLe (cardKeys (reconcile s ev).1.cards) := by
  have hndks : (sortKeys (ev.map Prod.fst)).Nodup :=
    ((List.perm_insertionSort KeyLe _).nodup_iff).mpr hnd
  have hkeys : cardKeys (reconcile s ev).1.cards =
      cardKeys s.cards ++ (sortKeys (ev.map Prod.fst)).filter
        (fun k => !(hasCard s.cards k)) := by
    simp only [reconcile]
    exact foldl_cardKeys _ _ _ _ _ hndks
  rw [hkeys, List.pairwise_append]
  refine ⟨hsorted, ?_, ?_⟩
  · exact (List.sorted_insertionSort KeyLe _).filter _
  · intro j hj k hk
    have hkmem := List.mem_filter.mp hk
    have hk1 : k ∈ ev.map Prod.fst :=
      ((List.perm_insertionSort KeyLe _).mem_iff).mp hkmem.1
    have hk2 : hasCard s.cards k = false := by
      have h2 := hkmem.2
      simpa using h2
    exact hcross k hk1 hk2 j hj

/-- Claim C7 witness: a state already showing `a` receives a snapshot
adding the larger key `b`; the display stays in ascending order. -/
theorem claim_C7_witness :
    ((([("a", (⟨"started"⟩ : EventRecord)),
        ("b", (⟨"done"⟩ : EventRecord))].map Prod.fst).Nodup ∧
      List.Pairwise KeyLe (cardKeys [⟨"a", "", "", false, false⟩]) ∧
      (∀ k ∈ [("a", (⟨"started"⟩ : EventRecord)),
          ("b", (⟨"done"⟩ : EventRecord))].map Prod.fst,
        hasCard [⟨"a", "", "", false, false⟩] k = false →
        ∀ j ∈ cardKeys [⟨"a", "", "", false, false⟩], KeyLe j k)) ∧
     List.Pairwise KeyLe (cardKeys (reconcile
       ⟨[⟨"a", "", "", false, false⟩], [], ["a"]⟩
       [("a", ⟨"started"⟩), ("b", ⟨"done"⟩)]).1.cards)) :=
  ⟨⟨by decide, by decide, by decide⟩,
   claim_C7 ⟨[⟨"a", "", "", false, false⟩], [], ["a"]⟩
     [("a", ⟨"started"⟩), ("b", ⟨"done"⟩)]
     (by decide) (by decide) (by decide)⟩

/-- Claim C7 counterexample: key `b` is displayed first (poll 1), then a
snapshot containing the smaller key `a` arrives (poll 2); `a`'s card is
appended after `b`'s, so the display order is `[b, a]` — descending, not
ascending, contradicting "ascending order regardless of the order in
which keys were first inserted into snapshots across polls". -/
theorem claim_C7_counterexample :
    cardKeys (reconcile (reconcile ⟨[], [], []⟩ [("b", ⟨"started"⟩)]).1
      [("a", ⟨"started"⟩), ("b", ⟨"started"⟩)]).1.cards = ["b", "a"] ∧
    keyLeChars ("b" : String).data ("a" : String).data = false := by
  constructor <;> decide

/-- Claim C5: decoding the canonical key
`"2025-05-21T19-50-13-708146"` succeeds, parsing exactly
year 2025, month 5, day 21, hour 19, minute 50, second 13 (a valid
datetime), and renders the locale short time, a space, and the locale
short date from those fields; and on every key where decoding fails the
original key is returned unchanged — in particular
`decode("not-a-timestamp") = "not-a-timestamp"`. -/
theorem claim_C5 (localeTime : Nat → Nat → String)
    (localeDate : Nat → Nat → Nat → String) :
    parseTimestampKey "2025-05-21T19-50-13-708146" =
      some ⟨2025, 5, 21, 19, 50, 13⟩ ∧
    jsDateValid ⟨2025, 5, 21, 19, 50, 13⟩ = true ∧
    formatTimestamp localeTime localeDate "2025-05-21T19-50-13-708146" =
      localeTime 19 50 ++ " " ++ localeDate 21 5 2025 ∧
    (∀ k : String, decodeFails k = true →
      formatTimestamp localeTime localeDate k = k) ∧
    formatTimestamp localeTime localeDate "not-a-timestamp" =
      "not-a-timestamp" := by
  refine ⟨by decide, by decide, ?_, ?_, ?_⟩
  · unfold formatTimestamp
    rw [show parseTimestampKey "2025-05-21T19-50-13-708146" =
        some ⟨2025, 5, 21, 19, 50, 13⟩ from by decide]
    show (if jsDateValid ⟨2025, 5, 21, 19, 50, 13⟩ = true then
        localeTime 19 50 ++ " " ++ localeDate 21 5 2025
      else "2025-05-21T19-50-13-708146") =
      localeTime 19 50 ++ " " ++ localeDate 21 5 2025
    rw [if_pos (by decide)]
  · intro k hk
    unfold decodeFails at hk
    unfold formatTimestamp
    cases hp : parseTimestampKey k with
    | none => rfl
    | some dt =>
      rw [hp] at hk
      have hv : jsDateValid dt = false := by simpa using hk
      show (if jsDateValid dt = true then
          localeTime dt.hour dt.minute ++ " " ++
            localeDate dt.day dt.month dt.year
        else k) = k
      rw [if_neg (by simp [hv])]
  · unfold formatTimestamp
    rw [show parseTimestampKey "not-a-timestamp" = none from by decide]

/-- Claim C5 witness: `"not-a-timestamp"` is a failing key and is
returned unchanged. -/
theorem claim_C5_witness :
    decodeFails "not-a-timestamp" = true ∧
    formatTimestamp (fun _ _ => "t") (fun _ _ _ => "d") "not-a-timestamp" =
      "not-a-timestamp" :=
  ⟨by decide, (claim_C5 (fun _ _ => "t") (fun _ _ _ => "d")).2.2.2.1
    "not-a-timestamp" (by decide)⟩
